import Mathlib

/-!
Shallow embedding of the ride/driver dispatch core of `src/app.py`
(FastAPI + SQLite service).  The three SQLite tables `users`, `drivers`,
`rides` become three lists of records; SQLite's AUTOINCREMENT primary keys
become explicit `next*Id` counters (ids start at 1 and rows are never
deleted).  Each HTTP handler becomes a function from the database state to
a new state paired with an optional error; a raised `HTTPException` is the
error, and the state returned on the error path is the state as it stands
at the point of the raise (in the source every raise precedes every write,
and the enclosing transaction rolls back anyway).  Timestamps
(`datetime.utcnow().isoformat()` / `CURRENT_TIMESTAMP`) are inert strings
supplied as a `now` parameter; coordinates are inert numeric payload the
core never computes with, modelled as integers.
-/

namespace Dispatch

/-- Coordinates (`REAL` columns `*_lat`/`*_lon`): inert payload, never used
in arithmetic by the core, modelled as integers. -/
abbrev Coord := Int

/-- A row of the `users` table (a rider request). -/
structure UserRec where
  id : Nat
  name : String
  contact : String
  start_location : String
  end_location : String
  start_lat : Option Coord
  start_lon : Option Coord
  end_lat : Option Coord
  end_lon : Option Coord
  request_status : String
  created_at : String
deriving Repr, DecidableEq

/-- A row of the `drivers` table. -/
structure DriverRec where
  id : Nat
  name : String
  contact : String
  location_lat : Option Coord
  location_lon : Option Coord
  license_url : Option String
  status : String
  updated_at : String
deriving Repr, DecidableEq

/-- A row of the `rides` table. -/
structure RideRec where
  id : Nat
  user_id : Nat
  driver_id : Option Nat
  status : String
  start_time : Option String
  end_time : Option String
deriving Repr, DecidableEq

/-- The whole SQLite database: the three tables plus their AUTOINCREMENT
counters. -/
structure DB where
  users : List UserRec
  drivers : List DriverRec
  rides : List RideRec
  nextUserId : Nat
  nextDriverId : Nat
  nextRideId : Nat
deriving Repr, DecidableEq

/-- A fresh database, as produced by `init_db`. -/
def DB.init : DB :=
  { users := [], drivers := [], rides := [],
    nextUserId := 1, nextDriverId := 1, nextRideId := 1 }

/-- Request body of `POST /user/request` (pydantic `UserRequestIn`). -/
structure UserRequestIn where
  name : String
  contact : String
  start_location : String
  end_location : String
  start_lat : Option Coord := none
  start_lon : Option Coord := none
  end_lat : Option Coord := none
  end_lon : Option Coord := none
deriving Repr, DecidableEq

/-- A row of the `GET /rides/latest` response (pydantic `RideOut`). -/
structure RideOut where
  ride_id : Nat
  status : String
  driver_id : Option Nat
  user_name : String
  start_location : String
  end_location : String
  created_at : String
deriving Repr, DecidableEq

/-- The `HTTPException`s the handlers raise: 404 "Driver not found" and
400 "Invalid status". -/
inductive ApiError where
  | NotFound
  | InvalidArgument
deriving Repr, DecidableEq

/-- `POST /user/request` (`user_request`): inserts one `users` row, reads
`last_insert_rowid()`, inserts one `rides` row with that `user_id`, status
`'requested'` and no driver, and returns the new user id.  Never raises. -/
def user_request (db : DB) (req : UserRequestIn) (now : String) : DB × Nat :=
  let uid := db.nextUserId
  let u : UserRec :=
    { id := uid, name := req.name, contact := req.contact,
      start_location := req.start_location, end_location := req.end_location,
      start_lat := req.start_lat, start_lon := req.start_lon,
      end_lat := req.end_lat, end_lon := req.end_lon,
      request_status := "requested", created_at := now }
  let r : RideRec :=
    { id := db.nextRideId, user_id := uid, driver_id := none,
      status := "requested", start_time := some now, end_time := none }
  ({ db with users := db.users ++ [u], rides := db.rides ++ [r],
             nextUserId := uid + 1, nextRideId := db.nextRideId + 1 }, uid)

/-- `POST /driver/register` (`driver_register`): inserts one `drivers` row
with status `'pending'`.  The optional license upload is handled by the
external file store; only the resulting path reference enters the row.
Never raises. -/
def driver_register (db : DB) (name contact : String)
    (location_lat location_lon : Option Coord) (license_url : Option String)
    (now : String) : DB :=
  let d : DriverRec :=
    { id := db.nextDriverId, name := name, contact := contact,
      location_lat := location_lat, location_lon := location_lon,
      license_url := license_url, status := "pending", updated_at := now }
  { db with drivers := db.drivers ++ [d], nextDriverId := db.nextDriverId + 1 }

/-- `POST /ride/accept` (`ride_accept`): looks up the first driver with the
given contact (`SELECT ... WHERE contact=:c ... first()`); raises 404 if
none.  Otherwise it unconditionally runs
`UPDATE rides SET status='accepted', driver_id=:did WHERE id=:rid` and
`UPDATE drivers SET status='busy', updated_at=:u WHERE id=:did`
— there is no check on the ride's current status, the ride's existence, or
the driver's current status. -/
def ride_accept (db : DB) (ride_id : Nat) (driver_contact : String)
    (now : String) : DB × Option ApiError :=
  match db.drivers.find? (fun d => d.contact == driver_contact) with
  | none => (db, some .NotFound)
  | some d =>
    let rides := db.rides.map fun r =>
      if r.id == ride_id then { r with status := "accepted", driver_id := some d.id }
      else r
    let drivers := db.drivers.map fun x =>
      if x.id == d.id then { x with status := "busy", updated_at := now }
      else x
    ({ db with rides := rides, drivers := drivers }, none)

/-- `POST /ride/end` (`ride_end`): looks up the first driver with the given
contact; raises 404 if none.  Otherwise it unconditionally runs
`UPDATE rides SET status='completed', end_time=:t WHERE id=:rid` and
`UPDATE drivers SET status='available', updated_at=:u WHERE id=:did`
— there is no check that the ride is `accepted`, nor that its bound driver
matches the caller. -/
def ride_end (db : DB) (ride_id : Nat) (driver_contact : String)
    (now : String) : DB × Option ApiError :=
  match db.drivers.find? (fun d => d.contact == driver_contact) with
  | none => (db, some .NotFound)
  | some d =>
    let rides := db.rides.map fun r =>
      if r.id == ride_id then { r with status := "completed", end_time := some now }
      else r
    let drivers := db.drivers.map fun x =>
      if x.id == d.id then { x with status := "available", updated_at := now }
      else x
    ({ db with rides := rides, drivers := drivers }, none)

/-- The five status strings accepted by `POST /admin/driver/status`. -/
def validStatuses : List String :=
  ["approved", "available", "busy", "inactive", "pending"]

/-- `POST /admin/driver/status` (`admin_driver_status`): raises 400 if the
status string is not one of the five recognized values, otherwise runs
`UPDATE drivers SET status=:s, updated_at=:u WHERE id=:i`. -/
def admin_driver_status (db : DB) (driver_id : Nat) (status : String)
    (now : String) : DB × Option ApiError :=
  if validStatuses.contains status then
    ({ db with drivers := db.drivers.map fun d =>
        if d.id == driver_id then { d with status := status, updated_at := now }
        else d }, none)
  else (db, some .InvalidArgument)

/-- One joined row of `GET /rides/latest`:
`SELECT r.id, r.status, r.driver_id, u.name, u.start_location,
u.end_location, u.created_at`. -/
def rideOutOf (u : UserRec) (r : RideRec) : RideOut :=
  { ride_id := r.id, status := r.status, driver_id := r.driver_id,
    user_name := u.name, start_location := u.start_location,
    end_location := u.end_location, created_at := u.created_at }

/-- The inner join `FROM rides r JOIN users u ON r.user_id = u.id`:
one output row per ride whose user exists. -/
def joinRides (db : DB) : List RideOut :=
  db.rides.filterMap fun r =>
    (db.users.find? (fun u => u.id == r.user_id)).map fun u => rideOutOf u r

/-- Insert into a list kept in descending `ride_id` order (a model of the
sort performed by `ORDER BY r.id DESC`). -/
def insertByIdDesc (x : RideOut) : List RideOut → List RideOut
  | [] => [x]
  | y :: ys =>
    if y.ride_id ≤ x.ride_id then x :: y :: ys else y :: insertByIdDesc x ys

/-- Sort by descending `ride_id` (`ORDER BY r.id DESC`). -/
def sortByIdDesc : List RideOut → List RideOut
  | [] => []
  | x :: xs => insertByIdDesc x (sortByIdDesc xs)

/-- `GET /rides/latest` (`rides_latest`): the join, ordered by descending
ride id, limited to 50 rows (`ORDER BY r.id DESC LIMIT 50`). -/
def rides_latest (db : DB) : List RideOut :=
  (sortByIdDesc (joinRides db)).take 50

/-- `GET /driver/available` (`driver_available`):
`SELECT * FROM drivers WHERE status IN ('approved','available')`. -/
def driver_available (db : DB) : List DriverRec :=
  db.drivers.filter fun d => d.status == "approved" || d.status == "available"

/-- The joined row that `GET /rides/latest` shows for the user and ride
inserted by `user_request req now` on database `db`. -/
def newRideRow (db : DB) (req : UserRequestIn) (now : String) : RideOut :=
  { ride_id := db.nextRideId, status := "requested", driver_id := none,
    user_name := req.name, start_location := req.start_location,
    end_location := req.end_location, created_at := now }

/-- One invocation of a state-mutating endpoint. -/
inductive Op where
  | request (req : UserRequestIn) (now : String)
  | register (name contact : String) (lat lon : Option Coord)
      (lic : Option String) (now : String)
  | accept (ride_id : Nat) (driver_contact : String) (now : String)
  | endRide (ride_id : Nat) (driver_contact : String) (now : String)
  | setStatus (driver_id : Nat) (status : String) (now : String)

/-- Run one endpoint, returning the resulting state and the error, if any. -/
def applyOpE (db : DB) : Op → DB × Option ApiError
  | .request req now => ((user_request db req now).1, none)
  | .register n c la lo lic now => (driver_register db n c la lo lic now, none)
  | .accept rid c now => ride_accept db rid c now
  | .endRide rid c now => ride_end db rid c now
  | .setStatus i s now => admin_driver_status db i s now

/-- The state after one endpoint invocation. -/
def applyOp (db : DB) (op : Op) : DB := (applyOpE db op).1

/-- States reachable from a fresh database by endpoint invocations. -/
inductive Reachable : DB → Prop where
  | init : Reachable DB.init
  | step (db : DB) (op : Op) : Reachable db → Reachable (applyOp db op)

/-- Run a sequence of endpoint invocations from a fresh database. -/
def runOps (ops : List Op) : DB := ops.foldl applyOp DB.init

/-- Well-formedness maintained by every endpoint: the `users` and `rides`
tables grow in lockstep with equal AUTOINCREMENT counters, and every
stored id is below its table's counter. -/
def WF (db : DB) : Prop :=
  db.users.length = db.rides.length ∧
  db.nextUserId = db.nextRideId ∧
  (∀ u ∈ db.users, u.id < db.nextUserId) ∧
  (∀ r ∈ db.rides, r.id < db.nextRideId ∧ r.user_id < db.nextUserId) ∧
  (∀ d ∈ db.drivers, d.id < db.nextDriverId)

/-- A concrete rider request used in the concrete executions below. -/
def req0 : UserRequestIn :=
  { name := "Alice", contact := "555-1", start_location := "A", end_location := "B" }

/-- Trace: two ride requests, one registered driver, driver accepts ride 1.
Afterwards ride 1 is `accepted` and driver 1 is `busy`. -/
def opsAccepted : List Op :=
  [.request req0 "t1", .request req0 "t2",
   .register "Dave" "555-9" none none none "t3",
   .accept 1 "555-9" "t4"]

/-- Trace: `opsAccepted` followed by the busy driver accepting ride 2 too. -/
def opsDouble : List Op := opsAccepted ++ [.accept 2 "555-9" "t5"]

/-- Trace: one ride request (ride 1, still `requested`) and one registered
driver. -/
def opsRequested : List Op :=
  [.request req0 "t1", .register "Dave" "555-9" none none none "t2"]

/-- Trace: `opsRequested` followed by `EndRide` on the never-accepted
ride 1. -/
def opsBadEnd : List Op := opsRequested ++ [.endRide 1 "555-9" "t3"]

theorem reachable_foldl (ops : List Op) (db : DB) (h : Reachable db) :
    Reachable (ops.foldl applyOp db) := by
  induction ops generalizing db with
  | nil => exact h
  | cons op ops ih => exact ih _ (Reachable.step db op h)

theorem reachable_runOps (ops : List Op) : Reachable (runOps ops) :=
  reachable_foldl ops DB.init Reachable.init

theorem wf_init : WF DB.init := by
  refine ⟨rfl, rfl, ?_, ?_, ?_⟩ <;> simp [DB.init]

theorem wf_applyOp (db : DB) (op : Op) (h : WF db) : WF (applyOp db op) := by
  obtain ⟨h1, h2, h3, h4, h5⟩ := h
  cases op with
  | request req now =>
    refine ⟨by simp [applyOp, applyOpE, user_request, h1],
            by simp [applyOp, applyOpE, user_request, h2], ?_, ?_, ?_⟩
    · intro u hu
      simp only [applyOp, applyOpE, user_request, List.mem_append,
        List.mem_singleton] at hu ⊢
      rcases hu with hu | hu
      · exact Nat.lt_succ_of_lt (h3 u hu)
      · subst hu; simp
    · intro r hr
      simp only [applyOp, applyOpE, user_request, List.mem_append,
        List.mem_singleton] at hr ⊢
      rcases hr with hr | hr
      · obtain ⟨ha, hb⟩ := h4 r hr
        exact ⟨Nat.lt_succ_of_lt ha, Nat.lt_succ_of_lt hb⟩
      · subst hr; simp
    · intro d hd
      simpa [applyOp, applyOpE, user_request] using h5 d hd
  | register n c la lo lic now =>
    refine ⟨by simpa [applyOp, applyOpE, driver_register] using h1,
            by simpa [applyOp, applyOpE, driver_register] using h2, ?_, ?_, ?_⟩
    · intro u hu
      simpa [applyOp, applyOpE, driver_register] using
        h3 u (by simpa [applyOp, applyOpE, driver_register] using hu)
    · intro r hr
      simpa [applyOp, applyOpE, driver_register] using
        h4 r (by simpa [applyOp, applyOpE, driver_register] using hr)
    · intro d hd
      simp only [applyOp, applyOpE, driver_register, List.mem_append,
        List.mem_singleton] at hd ⊢
      rcases hd with hd | hd
      · exact Nat.lt_succ_of_lt (h5 d hd)
      · subst hd; simp
  | accept rid c now =>
    simp only [applyOp, applyOpE, ride_accept]
    split
    next => exact ⟨h1, h2, h3, h4, h5⟩
    next d hfind =>
      refine ⟨by simpa using h1, h2, h3, ?_, ?_⟩
      · intro r hr
        simp only [List.mem_map] at hr
        obtain ⟨r0, hr0, rfl⟩ := hr
        by_cases hid : (r0.id == rid) = true <;> simp only [hid, if_true, if_false] <;>
          simpa using h4 r0 hr0
      · intro x hx
        simp only [List.mem_map] at hx
        obtain ⟨x0, hx0, rfl⟩ := hx
        by_cases hid2 : (x0.id == d.id) = true
        · simp only [hid2, if_true]; simpa using h5 x0 hx0
        · simp only [hid2, if_false]; exact h5 x0 hx0
  | endRide rid c now =>
    simp only [applyOp, applyOpE, ride_end]
    split
    next => exact ⟨h1, h2, h3, h4, h5⟩
    next d hfind =>
      refine ⟨by simpa using h1, h2, h3, ?_, ?_⟩
      · intro r hr
        simp only [List.mem_map] at hr
        obtain ⟨r0, hr0, rfl⟩ := hr
        by_cases hid : (r0.id == rid) = true <;> simp only [hid, if_true, if_false] <;>
          simpa using h4 r0 hr0
      · intro x hx
        simp only [List.mem_map] at hx
        obtain ⟨x0, hx0, rfl⟩ := hx
        by_cases hid2 : (x0.id == d.id) = true
        · simp only [hid2, if_true]; simpa using h5 x0 hx0
        · simp only [hid2, if_false]; exact h5 x0 hx0
  | setStatus i s now =>
    simp only [applyOp, applyOpE, admin_driver_status]
    split
    · refine ⟨h1, h2, h3, h4, ?_⟩
      intro x hx
      simp only [List.mem_map] at hx
      obtain ⟨x0, hx0, rfl⟩ := hx
      by_cases hid : (x0.id == i) = true
      · simp only [hid, if_true]; simpa using h5 x0 hx0
      · simp only [hid, if_false]; exact h5 x0 hx0
    · exact ⟨h1, h2, h3, h4, h5⟩

theorem wf_reachable (db : DB) (h : Reachable db) : WF db := by
  induction h with
  | init => exact wf_init
  | step db op _ ih => exact wf_applyOp db op ih

/-- C1: the spec says `AcceptRide` fails with `InvalidTransition` when the
ride is not `requested` or the driver is `busy`/`inactive`.  The code has
no such check: at a reachable state where ride 1 is already `accepted` and
its driver is `busy`, a second `AcceptRide` of ride 1 by the busy driver
still succeeds. -/
theorem acceptRide_missing_transition_check :
    (∃ r ∈ (runOps opsAccepted).rides, r.id = 1 ∧ r.status = "accepted") ∧
    (∃ d ∈ (runOps opsAccepted).drivers, d.contact = "555-9" ∧ d.status = "busy") ∧
    (ride_accept (runOps opsAccepted) 1 "555-9" "t5").2 = none := by
  decide

/-- C2: the spec says a driver is never bound to more than one `accepted`
ride.  In the reachable state after `opsDouble`, driver 1 is bound to two
rides that are both `accepted` (and is `busy`, so the "busy iff exactly
one accepted ride" equivalence also fails). -/
theorem driver_double_booked :
    Reachable (runOps opsDouble) ∧
    ((runOps opsDouble).rides.filter
        (fun r => r.status == "accepted" && r.driver_id == some 1)).length = 2 ∧
    (∃ d ∈ (runOps opsDouble).drivers, d.id = 1 ∧ d.status = "busy") :=
  ⟨reachable_runOps opsDouble, by decide, by decide⟩

/-- C3: the spec says `EndRide` fails with `InvalidTransition` when the
ride is not `accepted` (or is bound to another driver) and changes
nothing.  The code has no such check: `EndRide` on ride 1 while it is
still `requested` succeeds and marks it `completed`. -/
theorem endRide_missing_transition_check :
    (∃ r ∈ (runOps opsRequested).rides, r.id = 1 ∧ r.status = "requested") ∧
    (ride_end (runOps opsRequested) 1 "555-9" "t3").2 = none ∧
    (∃ r ∈ (ride_end (runOps opsRequested) 1 "555-9" "t3").1.rides,
        r.id = 1 ∧ r.status = "completed") := by
  decide

/-- C5: on any reachable state, `RequestRide` succeeds, appends exactly one
`users` row and one `rides` row (and nothing else), the new ride is
`requested` with no driver and references the new user, and the returned
id equals the new ride's id. -/
theorem requestRide_creates (db : DB) (req : UserRequestIn) (now : String)
    (h : Reachable db) :
    ∃ u r, (user_request db req now).1.users = db.users ++ [u] ∧
      (user_request db req now).1.rides = db.rides ++ [r] ∧
      (user_request db req now).1.drivers = db.drivers ∧
      u.name = req.name ∧ u.contact = req.contact ∧
      u.start_location = req.start_location ∧ u.end_location = req.end_location ∧
      r.status = "requested" ∧ r.driver_id = none ∧ r.user_id = u.id ∧
      (user_request db req now).2 = r.id := by
  refine ⟨_, _, rfl, rfl, rfl, rfl, rfl, rfl, rfl, rfl, rfl, rfl, ?_⟩
  show db.nextUserId = db.nextRideId
  exact (wf_reachable db h).2.1

theorem requestRide_creates_witness :
    Reachable DB.init ∧
    ∃ u r, (user_request DB.init req0 "t0").1.users = DB.init.users ++ [u] ∧
      (user_request DB.init req0 "t0").1.rides = DB.init.rides ++ [r] ∧
      (user_request DB.init req0 "t0").1.drivers = DB.init.drivers ∧
      u.name = req0.name ∧ u.contact = req0.contact ∧
      u.start_location = req0.start_location ∧ u.end_location = req0.end_location ∧
      r.status = "requested" ∧ r.driver_id = none ∧ r.user_id = u.id ∧
      (user_request DB.init req0 "t0").2 = r.id :=
  ⟨Reachable.init, requestRide_creates DB.init req0 "t0" Reachable.init⟩

/-- C6: `AcceptRide` with a contact matching no driver returns 404
`NotFound` and leaves the whole database (in particular every ride's
status) unchanged. -/
theorem acceptRide_unknown_driver (db : DB) (rid : Nat) (c now : String)
    (h : ∀ d ∈ db.drivers, d.contact ≠ c) :
    ride_accept db rid c now = (db, some ApiError.NotFound) := by
  have hf : db.drivers.find? (fun d => d.contact == c) = none :=
    List.find?_eq_none.mpr fun d hd => by simpa using h d hd
  simp [ride_accept, hf]

theorem acceptRide_unknown_driver_witness :
    (∀ d ∈ (runOps [Op.request req0 "t1"]).drivers, d.contact ≠ "555-9") ∧
    ride_accept (runOps [Op.request req0 "t1"]) 7 "555-9" "t2" =
      (runOps [Op.request req0 "t1"], some ApiError.NotFound) :=
  ⟨by decide,
   acceptRide_unknown_driver (runOps [Op.request req0 "t1"]) 7 "555-9" "t2" (by decide)⟩

/-- C7: whenever an endpoint returns an error, the resulting database is
exactly the database before the call: in every handler each raise precedes
every write. -/
theorem failed_op_leaves_state (db : DB) (op : Op) (e : ApiError)
    (h : (applyOpE db op).2 = some e) : (applyOpE db op).1 = db := by
  cases op with
  | request req now => simp [applyOpE] at h
  | register n c la lo lic now => simp [applyOpE] at h
  | accept rid c now =>
    revert h
    simp only [applyOpE]
    unfold ride_accept
    cases db.drivers.find? (fun d => d.contact == c)
    · intro _; rfl
    · intro h; simp at h
  | endRide rid c now =>
    revert h
    simp only [applyOpE]
    unfold ride_end
    cases db.drivers.find? (fun d => d.contact == c)
    · intro _; rfl
    · intro h; simp at h
  | setStatus i s now =>
    revert h
    simp only [applyOpE]
    unfold admin_driver_status
    by_cases hs : validStatuses.contains s = true
    · rw [if_pos hs]; intro h; simp at h
    · rw [if_neg hs]; intro _; rfl

theorem failed_op_leaves_state_witness :
    (applyOpE DB.init (Op.accept 1 "555-9" "t1")).2 = some ApiError.NotFound ∧
    (applyOpE DB.init (Op.accept 1 "555-9" "t1")).1 = DB.init :=
  ⟨by decide,
   failed_op_leaves_state DB.init (Op.accept 1 "555-9" "t1") ApiError.NotFound (by decide)⟩

/-- C9: whenever the driver contact matches some driver, `AcceptRide`
succeeds and marks that driver `busy`, for an arbitrary `ride_id` — the
ride's existence, the ride's status and the driver's prior status are
never consulted. -/
theorem acceptRide_known_driver_always_succeeds (db : DB) (rid : Nat)
    (c now : String) (d : DriverRec)
    (h : db.drivers.find? (fun x => x.contact == c) = some d) :
    (ride_accept db rid c now).2 = none ∧
    ∀ x ∈ (ride_accept db rid c now).1.drivers, x.id = d.id → x.status = "busy" := by
  constructor
  · simp [ride_accept, h]
  · intro x hx hid
    simp only [ride_accept, h, List.mem_map] at hx
    obtain ⟨x0, hx0, rfl⟩ := hx
    by_cases hb : (x0.id == d.id) = true
    · simp [hb]
    · rw [if_neg hb] at hid ⊢
      simp [hid] at hb

theorem acceptRide_known_driver_always_succeeds_witness :
    ((runOps opsRequested).drivers.find? (fun x => x.contact == "555-9") =
      some { id := 1, name := "Dave", contact := "555-9", location_lat := none,
             location_lon := none, license_url := none, status := "pending",
             updated_at := "t2" }) ∧
    (ride_accept (runOps opsRequested) 999 "555-9" "t3").2 = none ∧
    ∀ x ∈ (ride_accept (runOps opsRequested) 999 "555-9" "t3").1.drivers,
      x.id = 1 → x.status = "busy" :=
  ⟨by decide,
   acceptRide_known_driver_always_succeeds (runOps opsRequested) 999 "555-9" "t3"
     { id := 1, name := "Dave", contact := "555-9", location_lat := none,
       location_lon := none, license_url := none, status := "pending",
       updated_at := "t2" } (by decide)⟩

/-- C10: on any reachable state the `users` and `rides` tables have equal
size, and a `RequestRide` call returns exactly the id of the ride it
creates (both AUTOINCREMENT counters stay equal because `RequestRide` is
the only endpoint inserting into either table, one row each). -/
theorem users_rides_lockstep (db : DB) (req : UserRequestIn) (now : String)
    (h : Reachable db) :
    db.users.length = db.rides.length ∧
    ∃ r : RideRec, (user_request db req now).1.rides = db.rides ++ [r] ∧
      (user_request db req now).2 = r.id := by
  obtain ⟨h1, h2, -⟩ := wf_reachable db h
  exact ⟨h1, ⟨_, rfl, h2⟩⟩

theorem users_rides_lockstep_witness :
    Reachable DB.init ∧
    (DB.init.users.length = DB.init.rides.length ∧
     ∃ r : RideRec, (user_request DB.init req0 "t0").1.rides = DB.init.rides ++ [r] ∧
       (user_request DB.init req0 "t0").2 = r.id) :=
  ⟨Reachable.init, users_rides_lockstep DB.init req0 "t0" Reachable.init⟩

/-- C4: the spec says a ride's driver reference is non-null iff its status
is `accepted` or `completed`.  The reachable state after `opsBadEnd`
contains a ride that is `completed` with no driver bound. -/
theorem completed_ride_without_driver :
    Reachable (runOps opsBadEnd) ∧
    ∃ r ∈ (runOps opsBadEnd).rides, r.status = "completed" ∧ r.driver_id = none :=
  ⟨reachable_runOps opsBadEnd, by decide⟩

theorem perm_insertByIdDesc (x : RideOut) (l : List RideOut) :
    (insertByIdDesc x l).Perm (x :: l) := by
  induction l with
  | nil => exact List.Perm.refl _
  | cons y ys ih =>
    unfold insertByIdDesc
    by_cases hc : y.ride_id ≤ x.ride_id
    · rw [if_pos hc]
    · rw [if_neg hc]
      exact (ih.cons y).trans (List.Perm.swap x y ys)

theorem perm_sortByIdDesc (l : List RideOut) : (sortByIdDesc l).Perm l := by
  induction l with
  | nil => exact List.Perm.refl _
  | cons x xs ih => exact (perm_insertByIdDesc x (sortByIdDesc xs)).trans (ih.cons x)

theorem pairwise_insertByIdDesc (x : RideOut) (l : List RideOut)
    (h : l.Pairwise fun a b => b.ride_id ≤ a.ride_id) :
    (insertByIdDesc x l).Pairwise fun a b => b.ride_id ≤ a.ride_id := by
  induction l with
  | nil => simp [insertByIdDesc]
  | cons y ys ih =>
    rw [List.pairwise_cons] at h
    obtain ⟨hy, hys⟩ := h
    unfold insertByIdDesc
    by_cases hc : y.ride_id ≤ x.ride_id
    · rw [if_pos hc]
      rw [List.pairwise_cons]
      refine ⟨?_, List.pairwise_cons.mpr ⟨hy, hys⟩⟩
      intro b hb
      rcases List.mem_cons.mp hb with rfl | hb'
      · exact hc
      · exact le_trans (hy b hb') hc
    · rw [if_neg hc]
      rw [List.pairwise_cons]
      refine ⟨?_, ih hys⟩
      intro b hb
      rcases List.mem_cons.mp ((perm_insertByIdDesc x ys).mem_iff.mp hb) with rfl | hb'
      · exact le_of_not_le hc
      · exact hy b hb'

theorem pairwise_sortByIdDesc (l : List RideOut) :
    (sortByIdDesc l).Pairwise fun a b => b.ride_id ≤ a.ride_id := by
  induction l with
  | nil => simp [sortByIdDesc]
  | cons x xs ih => exact pairwise_insertByIdDesc x _ ih

/-- If `v` occurs exactly once in `l` and every other element has a
strictly smaller `ride_id`, then the descending sort of `l` starts with
`v` and `v` does not recur. -/
theorem sortByIdDesc_head_max (l : List RideOut) (v : RideOut) (hv : v ∈ l)
    (hmax : ∀ y ∈ l, y = v ∨ y.ride_id < v.ride_id) (hcount : l.count v = 1) :
    ∃ rest, sortByIdDesc l = v :: rest ∧ v ∉ rest := by
  cases hs : sortByIdDesc l with
  | nil =>
    exfalso
    have : v ∈ sortByIdDesc l := (perm_sortByIdDesc l).mem_iff.mpr hv
    rw [hs] at this
    exact List.not_mem_nil v this
  | cons z rest =>
    have hzl : z ∈ l := (perm_sortByIdDesc l).mem_iff.mp (by rw [hs]; exact List.mem_cons_self z rest)
    have hpw := pairwise_sortByIdDesc l
    rw [hs, List.pairwise_cons] at hpw
    have hzv : z = v := by
      rcases hmax z hzl with h | h
      · exact h
      · exfalso
        have hvs : v ∈ sortByIdDesc l := (perm_sortByIdDesc l).mem_iff.mpr hv
        rw [hs] at hvs
        rcases List.mem_cons.mp hvs with rfl | hvrest
        · exact lt_irrefl _ h
        · exact absurd (hpw.1 v hvrest) (not_le_of_lt h)
    subst hzv
    refine ⟨rest, rfl, ?_⟩
    have hc : List.count z (sortByIdDesc l) = 1 := by
      rw [(perm_sortByIdDesc l).count_eq z]
      exact hcount
    rw [hs, List.count_cons_self] at hc
    have hz0 : List.count z rest = 0 := by omega
    exact List.count_eq_zero.mp hz0

theorem find?_append_of_none {α} (p : α → Bool) (l₁ l₂ : List α)
    (h : l₁.find? p = none) : (l₁ ++ l₂).find? p = l₂.find? p := by
  induction l₁ with
  | nil => rfl
  | cons a l ih =>
    by_cases hp : p a = true
    · rw [List.find?_cons_of_pos l hp] at h
      exact absurd h (by simp)
    · rw [List.find?_cons_of_neg l hp] at h
      rw [List.cons_append, List.find?_cons_of_neg _ hp]
      exact ih h

theorem find?_append_of_some {α} (p : α → Bool) (l₁ l₂ : List α) (a : α)
    (h : l₁.find? p = some a) : (l₁ ++ l₂).find? p = some a := by
  induction l₁ with
  | nil => exact absurd h (by simp)
  | cons b l ih =>
    by_cases hp : p b = true
    · rw [List.find?_cons_of_pos l hp] at h
      rw [List.cons_append, List.find?_cons_of_pos _ hp]
      exact h
    · rw [List.find?_cons_of_neg l hp] at h
      rw [List.cons_append, List.find?_cons_of_neg _ hp]
      exact ih h

/-- Joining old rides against the user table extended by a fresh user is
the same as joining against the old user table, since no old ride
references the fresh user's id. -/
theorem join_old_rides (users : List UserRec) (rides : List RideRec)
    (nu : UserRec) (h : ∀ r ∈ rides, r.user_id ≠ nu.id) :
    rides.filterMap (fun r =>
        ((users ++ [nu]).find? (fun u => u.id == r.user_id)).map fun u => rideOutOf u r) =
      rides.filterMap (fun r =>
        (users.find? (fun u => u.id == r.user_id)).map fun u => rideOutOf u r) := by
  apply List.filterMap_congr
  intro r hr
  cases hf : users.find? (fun u => u.id == r.user_id) with
  | none =>
    rw [find?_append_of_none _ _ _ hf]
    rw [List.find?_cons_of_neg _ (by simpa using fun he => h r hr he.symm)]
    rfl
  | some u => rw [find?_append_of_some _ _ _ _ hf]

/-- A fresh ride referencing a fresh user joins to exactly one row, when
no old user carries the fresh user's id. -/
theorem join_new_ride (users : List UserRec) (nu : UserRec) (nr : RideRec)
    (hid : nr.user_id = nu.id) (h : ∀ u ∈ users, u.id ≠ nu.id) :
    [nr].filterMap (fun r =>
        ((users ++ [nu]).find? (fun u => u.id == r.user_id)).map fun u => rideOutOf u r) =
      [rideOutOf nu nr] := by
  have hnone : users.find? (fun u => u.id == nr.user_id) = none := by
    rw [List.find?_eq_none]
    intro u hu
    simp only [beq_iff_eq, hid]
    exact h u hu
  simp only [List.filterMap_cons, List.filterMap_nil]
  rw [find?_append_of_none _ _ _ hnone]
  rw [List.find?_cons_of_pos _ (by simp [hid])]
  simp

/-- The joined rows after `RequestRide`: the old join plus one new row for
the inserted user and ride. -/
theorem joinRides_user_request (db : DB) (req : UserRequestIn) (now : String)
    (h : WF db) :
    joinRides (user_request db req now).1 =
      joinRides db ++ [newRideRow db req now] := by
  obtain ⟨-, h2, h3, h4, -⟩ := h
  simp only [user_request, joinRides]
  rw [List.filterMap_append]
  rw [join_old_rides db.users db.rides
    { id := db.nextUserId, name := req.name, contact := req.contact,
      start_location := req.start_location, end_location := req.end_location,
      start_lat := req.start_lat, start_lon := req.start_lon,
      end_lat := req.end_lat, end_lon := req.end_lon,
      request_status := "requested", created_at := now }
    (fun r hr => by have := (h4 r hr).2; simp only []; omega)]
  rw [join_new_ride db.users
    { id := db.nextUserId, name := req.name, contact := req.contact,
      start_location := req.start_location, end_location := req.end_location,
      start_lat := req.start_lat, start_lon := req.start_lon,
      end_lat := req.end_lat, end_lon := req.end_lon,
      request_status := "requested", created_at := now }
    { id := db.nextRideId, user_id := db.nextUserId, driver_id := none,
      status := "requested", start_time := some now, end_time := none }
    rfl (fun u hu => by have := h3 u hu; simp only []; omega)]
  rfl

/-- Every joined row of a well-formed database has a ride id below the
AUTOINCREMENT counter. -/
theorem joinRides_ride_id_lt (db : DB) (h : WF db) :
    ∀ y ∈ joinRides db, y.ride_id < db.nextRideId := by
  obtain ⟨-, -, -, h4, -⟩ := h
  intro y hy
  simp only [joinRides, List.mem_filterMap] at hy
  obtain ⟨r, hr, hfr⟩ := hy
  cases hf : db.users.find? (fun u => u.id == r.user_id) with
  | none => rw [hf] at hfr; exact absurd hfr (by simp)
  | some u =>
    rw [hf] at hfr
    have he : rideOutOf u r = y := by simpa using hfr
    subst he
    exact (h4 r hr).1

/-- C8: `ListRecentRides` always returns at most 50 rows ordered by
descending ride id, and immediately after a `RequestRide` on a reachable
state the newly created ride, joined with the rider's public fields, is
the first row, with every following row an older ride. -/
theorem ridesLatest_spec (db : DB) (req : UserRequestIn) (now : String)
    (h : Reachable db) :
    (∀ d : DB, (rides_latest d).length ≤ 50 ∧
      (rides_latest d).Pairwise fun a b => b.ride_id ≤ a.ride_id) ∧
    (rides_latest (user_request db req now).1).head? =
      some (newRideRow db req now) ∧
    ∀ y ∈ (rides_latest (user_request db req now).1).tail,
      y.ride_id < db.nextRideId := by
  have hwf := wf_reachable db h
  have hjoin := joinRides_user_request db req now hwf
  have hlt := joinRides_ride_id_lt db hwf
  have hvid : (newRideRow db req now).ride_id = db.nextRideId := rfl
  have hvmem : newRideRow db req now ∈ joinRides db ++ [newRideRow db req now] := by
    simp
  have hmax : ∀ y ∈ joinRides db ++ [newRideRow db req now],
      y = newRideRow db req now ∨ y.ride_id < (newRideRow db req now).ride_id := by
    intro y hy
    rcases List.mem_append.mp hy with hy | hy
    · right; rw [hvid]; exact hlt y hy
    · left; simpa using hy
  have hcount : List.count (newRideRow db req now)
      (joinRides db ++ [newRideRow db req now]) = 1 := by
    rw [List.count_append]
    have h0 : List.count (newRideRow db req now) (joinRides db) = 0 := by
      rw [List.count_eq_zero]
      intro hmem
      have := hlt _ hmem
      rw [hvid] at this
      exact lt_irrefl db.nextRideId this
    rw [h0]
    simp
  obtain ⟨rest, hsort, hvrest⟩ :=
    sortByIdDesc_head_max _ _ hvmem hmax hcount
  refine ⟨?_, ?_, ?_⟩
  · intro d
    exact ⟨List.length_take_le _ _,
      List.Pairwise.sublist (List.take_sublist _ _) (pairwise_sortByIdDesc _)⟩
  · simp only [rides_latest]
    rw [hjoin, hsort]
    rfl
  · intro y hy
    simp only [rides_latest] at hy
    rw [hjoin, hsort] at hy
    have hy' : y ∈ List.take 49 rest := hy
    have hyrest : y ∈ rest := List.mem_of_mem_take hy'
    have hyl : y ∈ joinRides db ++ [newRideRow db req now] := by
      refine (perm_sortByIdDesc _).mem_iff.mp ?_
      rw [hsort]
      exact List.mem_cons_of_mem _ hyrest
    rcases List.mem_append.mp hyl with hyo | hyo
    · exact hlt y hyo
    · exfalso
      have hyv : y = newRideRow db req now := by simpa using hyo
      subst hyv
      exact hvrest hyrest

theorem ridesLatest_spec_witness :
    Reachable DB.init ∧
    ((∀ d : DB, (rides_latest d).length ≤ 50 ∧
        (rides_latest d).Pairwise fun a b => b.ride_id ≤ a.ride_id) ∧
      (rides_latest (user_request DB.init req0 "t0").1).head? =
        some (newRideRow DB.init req0 "t0") ∧
      ∀ y ∈ (rides_latest (user_request DB.init req0 "t0").1).tail,
        y.ride_id < DB.init.nextRideId) :=
  ⟨Reachable.init, ridesLatest_spec DB.init req0 "t0" Reachable.init⟩

end Dispatch
